import Mathlib

/-!
Verification of the clip-assembly engine of `alert-videos-processor`
(`src/clip_extractor.py`, `src/clip_extractor_draft.py`, `src/video_utils.py`),
as a shallow embedding in Lean 4.

Time is modelled as seconds (an `Int` for arithmetic, derived from a
proleptic-Gregorian second count), which is order- and
arithmetic-isomorphic to Python `datetime` values with `timedelta`
arithmetic in the valid range.  A Python exception escaping a statement
is modelled by `Except Unit` (`.error ()` = an exception was raised).
-/

namespace ClipSpec

/-- Decidable equality of `Except` results (used to evaluate the model
    on concrete inputs). -/
instance {ε α : Type} [DecidableEq ε] [DecidableEq α] :
    DecidableEq (Except ε α)
  | .error e, .error f =>
    if h : e = f then isTrue (by rw [h])
    else isFalse (fun c => h (Except.error.inj c))
  | .error _, .ok _ => isFalse (fun c => Except.noConfusion c)
  | .ok _, .error _ => isFalse (fun c => Except.noConfusion c)
  | .ok a, .ok b =>
    if h : a = b then isTrue (by rw [h])
    else isFalse (fun c => h (Except.ok.inj c))

/-! ## Calendar model (Python `datetime.datetime` constructor validity
    and chronological order, `src/clip_extractor.py` line 110). -/

/-- Gregorian leap-year rule, as used by Python `datetime`. -/
def isLeap (y : Nat) : Bool := (y % 4 == 0 && y % 100 != 0) || (y % 400 == 0)

/-- Number of days in month `m` of year `y` (months are 1-based). -/
def daysInMonth (y m : Nat) : Nat :=
  if m = 2 then (if isLeap y then 29 else 28)
  else if m = 4 ∨ m = 6 ∨ m = 9 ∨ m = 11 then 30
  else 31

/-- Days in the months strictly before month `m` of year `y`. -/
def daysBeforeMonth (y m : Nat) : Nat :=
  (List.range (m - 1)).foldl (fun a k => a + daysInMonth y (k + 1)) 0

/-- Days in the years strictly before year `y` (proleptic Gregorian). -/
def daysBeforeYear (y : Nat) : Nat :=
  365 * (y - 1) + (y - 1) / 4 - (y - 1) / 100 + (y - 1) / 400

/-- Validity test of `datetime.datetime(y, mo, d, h, mi, s)`:
    the constructor raises `ValueError` exactly when this is `false`. -/
def validDate (y mo d h mi s : Nat) : Bool :=
  1 ≤ y && y ≤ 9999 && 1 ≤ mo && mo ≤ 12 && 1 ≤ d && d ≤ daysInMonth y mo &&
  h ≤ 23 && mi ≤ 59 && s ≤ 59

/-- Second count of a valid datetime; injective and monotone in
    chronological order, so comparisons and `timedelta` arithmetic on
    Python datetimes coincide with `Int` operations on this count. -/
def toSeconds (y mo d h mi s : Nat) : Nat :=
  (daysBeforeYear y + daysBeforeMonth y mo + (d - 1)) * 86400 +
    h * 3600 + mi * 60 + s

/-- Model of `datetime.datetime(y, mo, d, h, mi, s)`: `none` models the raised
    `ValueError` on invalid field values. -/
def mkDatetime (y mo d h mi s : Nat) : Option Int :=
  if validDate y mo d h mi s then some (toSeconds y mo d h mi s : Int) else none

/-! ## Filename pattern
    (default regex `gcam_(\d{2})(\d{2})(\d{4})_(\d{2})(\d{2})(\d{2})\.mp4`,
    `src/clip_extractor.py` line 49, applied with `re.match`, i.e.
    anchored at the start only: trailing characters are allowed). -/

/-- ASCII decimal digit test (`\d` of the default pattern). -/
def isDig (c : Char) : Bool := decide ('0' ≤ c) && decide (c ≤ '9')

/-- Numeric value of one digit character. -/
def digVal (c : Char) : Nat := c.toNat - 48

/-- Two-digit field value. -/
def dig2 (a b : Char) : Nat := digVal a * 10 + digVal b

/-- Four-digit field value. -/
def dig4 (a b c d : Char) : Nat := (dig2 a b) * 100 + dig2 c d

/-- Model of `re.match` of the default chunk-filename pattern against `cs`:
    returns the six captured groups `(DD, MM, YYYY, HH, MM, SS)`.
    Trailing characters after `.mp4` are ignored, as `re.match` only
    anchors at the start of the string. -/
def matchDefaultPattern (cs : List Char) :
    Option (Nat × Nat × Nat × Nat × Nat × Nat) :=
  match cs with
  | 'g' :: 'c' :: 'a' :: 'm' :: '_' :: d1 :: d2 :: m1 :: m2 ::
      y1 :: y2 :: y3 :: y4 :: '_' :: h1 :: h2 :: n1 :: n2 :: s1 :: s2 ::
      '.' :: 'm' :: 'p' :: '4' :: _ =>
    if isDig d1 && isDig d2 && isDig m1 && isDig m2 &&
       isDig y1 && isDig y2 && isDig y3 && isDig y4 &&
       isDig h1 && isDig h2 && isDig n1 && isDig n2 &&
       isDig s1 && isDig s2 then
      some (dig2 d1 d2, dig2 m1 m2, dig4 y1 y2 y3 y4,
            dig2 h1 h2, dig2 n1 n2, dig2 s1 s2)
    else none
  | _ => none

/-- Model of `ClipExtractor._parse_chunk_start_time` (lines 94-110):
    `.ok none` = the regex did not match (Python returns `None`);
    `.ok (some t)` = parsed start instant `t`;
    `.error ()` = the `datetime` constructor raised `ValueError`
    (regex matched but the fields are not a valid calendar date);
    the exception propagates to the caller. -/
def parse_chunk_start_time (filename : String) : Except Unit (Option Int) :=
  match matchDefaultPattern filename.data with
  | none => .ok none
  | some (d, mo, y, h, mi, s) =>
    match mkDatetime y mo d h mi s with
    | some t => .ok (some t)
    | none => .error ()

/-! ## Chunk catalog (`_list_chunks`, `_list_local_chunks`). -/

/-- One catalog entry: dict `{"key"/"path", "name", "S", "E"}`.  The
    backend-specific location handle (S3 key / local path) is opaque and
    determined by `name`, so it is not repeated here. -/
structure Chunk where
  name : String
  S : Int
  E : Int
deriving DecidableEq, Repr

/-- The catalog loop body applied to a list of basenames, in listing
    order (lines 130-147 / 173-192): a name whose parse raises makes the
    whole loop raise (`none`); a non-matching name is skipped; a parsed
    name yields `{name, S, E = S + dur}`. -/
def collectChunks (dur : Int) : List String → Option (List Chunk)
  | [] => some []
  | n :: ns =>
    match parse_chunk_start_time n with
    | .error _ => none
    | .ok none => collectChunks dur ns
    | .ok (some t) => (collectChunks dur ns).map (fun cs => ⟨n, t, t + dur⟩ :: cs)

/-- Stable insertion of a chunk after all entries with start ≤ its own:
    together with `sortByS` this is the unique stable sort by the key
    `S`, hence extensionally `list.sort(key=lambda x: x["S"])`
    (Python's sort is stable). -/
def insertChunk (c : Chunk) : List Chunk → List Chunk
  | [] => [c]
  | d :: ds => if d.S ≤ c.S then d :: insertChunk c ds else c :: d :: ds

/-- Stable sort by start time `S`, ties kept in input order. -/
def sortByS (l : List Chunk) : List Chunk :=
  l.foldl (fun acc c => insertChunk c acc) []

/-- Model of `ClipExtractor._list_chunks`, S3 backend (lines 126-157), applied to
    the basenames of the listed object keys in listing order.  An
    exception inside the `try` block (a `ValueError` from
    `_parse_chunk_start_time`) is caught at line 154 and yields `[]`. -/
def listChunksS3 (dur : Int) (names : List String) : List Chunk :=
  match collectChunks dur names with
  | none => []
  | some cs => sortByS cs

/-- Model of `_list_chunks` including the enumeration itself: the S3 paginator
    raising (unreachable storage, permission denied, malformed listing)
    is modelled by `.error ()`, and is caught by the same `except` at
    line 154, yielding `[]`. -/
def listChunksS3Enum (dur : Int) (listing : Except Unit (List String)) :
    List Chunk :=
  match listing with
  | .error _ => []
  | .ok names => listChunksS3 dur names

/-- Model of `filename.endswith(".mp4")` (line 174). -/
def endsWithMp4 (s : String) : Bool :=
  match s.data.reverse with
  | '4' :: 'p' :: 'm' :: '.' :: _ => true
  | _ => false

/-- Model of `ClipExtractor._list_local_chunks` (lines 159-202), applied to the
    directory entries in listing order: additionally to the S3 backend,
    a filename not ending in `.mp4` is skipped before the pattern is
    tried (line 174). -/
def listChunksLocal (dur : Int) (names : List String) : List Chunk :=
  match collectChunks dur (names.filter (fun n => endsWithMp4 n)) with
  | none => []
  | some cs => sortByS cs

/-! ## Window selector. -/

/-- Model of `window_start = alert_time - timedelta(seconds=before_minutes*60)`
    (lines 312-314). -/
def windowStart (alert beforeMin : Int) : Int := alert - beforeMin * 60

/-- Model of `window_end = alert_time + timedelta(seconds=after_minutes*60)`
    (lines 313-315). -/
def windowEnd (alert afterMin : Int) : Int := alert + afterMin * 60

/-- Model of `ClipExtractor._chunk_intersects_window` (lines 204-217):
    `not (chunk["E"] <= window_start or chunk["S"] >= window_end)`. -/
def chunk_intersects_window (c : Chunk) (ws we : Int) : Bool :=
  !(decide (c.E ≤ ws) || decide (c.S ≥ we))

/-- Model of the selection `[c for c in all_chunks if self._chunk_intersects_window(c, ws, we)]`
    (line 326). -/
def selectChunks (chunks : List Chunk) (ws we : Int) : List Chunk :=
  chunks.filter (fun c => chunk_intersects_window c ws we)

/-! ## Segment offset / duration (lines 364-372). -/

/-- Model of `offset_seconds = (max(chunk["S"], window_start) - chunk["S"]).total_seconds()`. -/
def segOffset (c : Chunk) (ws : Int) : Int := max c.S ws - c.S

/-- Model of `duration_seconds = (min(chunk["E"], window_end) - max(chunk["S"], window_start)).total_seconds()`. -/
def segDuration (c : Chunk) (ws we : Int) : Int := min c.E we - max c.S ws

/-! ## Orchestrator model (`ClipExtractor.extract_clip`, lines 281-486).

The effectful steps (S3 download, ffmpeg trim / concat, the
`ensure_browser_playable_mp4` remux of `src/video_utils.py`, thumbnail
generation) are abstracted by success/failure oracles in `Env`;
the scratch filesystem is an explicit list of abstract file handles. -/

/-- Abstract handles for the files `extract_clip` touches in
    `output_dir`: `part (idx)` = `part_{idx}.mp4`; `dl name` = the
    chunk downloaded from S3 to `output_dir/name`; `concatTxt` =
    `concat_{ts}.txt`; `tempConcat` = `alert_clip_{ts}_temp.mp4`;
    outputFile = `alert_clip_{ts}.mp4`; thumbFile = `thumb_{ts}.jpg`. -/
inductive TempFile where
  | part (idx : Nat)
  | dl (name : String)
  | concatTxt
  | tempConcat
  | outputFile
  | thumbFile
deriving DecidableEq, Repr

/-- Success/failure oracles for the effectful steps of one run. -/
structure Env where
  credsOk : Bool
  localSource : Bool
  downloadOk : Nat → Bool
  trimOk : Nat → Bool
  concatOk : Bool
  optimizeOk : Bool
  thumbOk : Bool

/-- State threaded through the per-chunk loop: the running
    `temp_files_to_cleanup` list, the files currently on disk, every
    file ever created, and the chunk indices whose loop iteration was
    entered. -/
structure LoopState where
  cleanup : List TempFile
  existing : List TempFile
  created : List TempFile
  steps : List Nat
deriving DecidableEq, Repr

/-- Model of `_cleanup_temp_files(temps)` (lines 219-232): removes each listed
    file that exists (idealized: every removal succeeds). -/
def cleanupTempFiles (temps existing : List TempFile) : List TempFile :=
  existing.filter (fun f => !(decide (f ∈ temps)))

/-- Creating a file on disk. -/
def addFile (f : TempFile) (l : List TempFile) : List TempFile := f :: l

/-- Model of `os.replace(a, b)`: `a` disappears, `b` (re)appears. -/
def replaceFile (a b : TempFile) (l : List TempFile) : List TempFile :=
  b :: l.filter (fun f => !(decide (f = a)))

/-- Record a created file in the loop state. -/
def stCreate (f : TempFile) (st : LoopState) : LoopState :=
  { st with existing := addFile f st.existing, created := addFile f st.created }

/-- Append a path to `temp_files_to_cleanup`. -/
def stCleanup (f : TempFile) (st : LoopState) : LoopState :=
  { st with cleanup := st.cleanup ++ [f] }

/-- Model of the loop `for idx, chunk in enumerate(selected_chunks)` (lines 339-394),
    started at absolute index `i`: registers `part_{idx}.mp4` for
    cleanup, downloads the chunk when remote (registering the download
    target for cleanup first), then runs the ffmpeg trim; a download or
    trim failure returns `.error` with the state at the failure point
    (the code then cleans up and returns `(None, None)`). -/
def runSegments (env : Env) : List Chunk → Nat → LoopState →
    Except LoopState LoopState
  | [], _, st => .ok st
  | c :: rest, i, st =>
    let st1 := stCleanup (.part i) { st with steps := st.steps ++ [i] }
    let afterDl : Except LoopState LoopState :=
      if env.localSource then .ok st1
      else
        let st2 := stCleanup (.dl c.name) st1
        if env.downloadOk i then .ok (stCreate (.dl c.name) st2)
        else .error st2
    match afterDl with
    | .error st' => .error st'
    | .ok st2 =>
      if env.trimOk i then runSegments env rest (i + 1) (stCreate (.part i) st2)
      else .error st2

/-- The value `extract_clip` returns, together with the final scratch
    filesystem, the set of files ever created, the iterations entered,
    and whether the "Using non-optimized concatenated file" warning of
    line 457 was logged. -/
structure RunResult where
  artifact : Option TempFile
  thumbnail : Option TempFile
  existing : List TempFile
  created : List TempFile
  steps : List Nat
  warnedDegraded : Bool
deriving DecidableEq, Repr

/-- Return before any file was created (credentials missing, empty
    catalog, or empty selection): `(None, None)`, nothing on disk. -/
def emptyResult : RunResult :=
  { artifact := none, thumbnail := none, existing := [], created := [],
    steps := [], warnedDegraded := false }

/-- Abort path: `self._cleanup_temp_files(temp_files_to_cleanup)` then
    `return None, None`. -/
def abortResult (st : LoopState) : RunResult :=
  { artifact := none, thumbnail := none,
    existing := cleanupTempFiles st.cleanup st.existing,
    created := st.created, steps := st.steps, warnedDegraded := false }

/-- The catalog `extract_clip` consults at line 320, by backend. -/
def catalogOf (env : Env) (dur : Int) (listing : Except Unit (List String)) :
    List Chunk :=
  if env.localSource then
    match listing with
    | .error _ => []
    | .ok names => listChunksLocal dur names
  else listChunksS3Enum dur listing

/-- Model of `ClipExtractor.extract_clip` (lines 281-486) with the alert instant
    already parsed to `alert` (seconds) and the directory/S3 listing
    outcome given as `listing`.  Follows the source control flow:
    credentials check; window computation; catalog; selection; per-chunk
    loop; concat manifest + ffmpeg concat; faststart remux with fallback
    to the unoptimized file on failure (lines 446-459); thumbnail
    (non-fatal); final cleanup keeping the output and thumbnail. -/
def extract_clip (env : Env) (dur : Int) (listing : Except Unit (List String))
    (alert beforeMin afterMin : Int) : RunResult :=
  if !env.credsOk then emptyResult
  else
    let ws := windowStart alert beforeMin
    let we := windowEnd alert afterMin
    let allChunks := catalogOf env dur listing
    if allChunks.isEmpty then emptyResult
    else
      let selected := selectChunks allChunks ws we
      if selected.isEmpty then emptyResult
      else
        match runSegments env selected 0 ⟨[], [], [], []⟩ with
        | .error st => abortResult st
        | .ok st =>
          let st := stCreate .concatTxt (stCleanup .concatTxt st)
          let st := stCleanup .tempConcat st
          if !env.concatOk then abortResult st
          else
            let st := stCreate .tempConcat st
            -- optimize step: on success `ensure_browser_playable_mp4`
            -- rewrites `tempConcat` in place; in both branches
            -- `os.replace(temp_concat_file, output_file)` runs
            -- (lines 449-459), so the filesystem effect is the same and
            -- only the warning differs.
            let st := { st with
              existing := replaceFile .tempConcat .outputFile st.existing,
              created := addFile .outputFile st.created }
            let warned := !env.optimizeOk
            let (thumb, st) :=
              if env.thumbOk then (some TempFile.thumbFile, stCreate .thumbFile st)
              else (none, st)
            { artifact := some .outputFile, thumbnail := thumb,
              existing := cleanupTempFiles st.cleanup st.existing,
              created := st.created, steps := st.steps, warnedDegraded := warned }

/-- Failure of the Segment Extractor step at absolute chunk index `i`:
    the S3 download fails (remote backend only, lines 356-362), or
    otherwise the ffmpeg trim exits nonzero / times out
    (lines 375-392). -/
def segFails (env : Env) (i : Nat) : Bool :=
  if !env.localSource && !env.downloadOk i then true else !env.trimOk i

/-! ## Draft implementation (`src/clip_extractor_draft.py`). -/

namespace Draft

/-- Constant `CHUNK_DURATION_SEC = 300` (line 23 of the draft): hard-coded,
    not configurable. -/
def CHUNK_DURATION_SEC : Int := 300

/-- Model of `parse_end_time` (draft lines 32-37): the same regex and the same
    `datetime` constructor as the production parser, so the same
    parse function; only the interpretation of the result differs. -/
def parse_end_time (filename : String) : Except Unit (Option Int) :=
  parse_chunk_start_time filename

/-- The per-filename step of the draft `list_chunks` (lines 43-54):
    the parsed instant is the chunk END, `S = E - CHUNK_DURATION_SEC`. -/
def chunkOfName (filename : String) : Except Unit (Option Chunk) :=
  match parse_end_time filename with
  | .error e => .error e
  | .ok none => .ok none
  | .ok (some e) => .ok (some ⟨filename, e - CHUNK_DURATION_SEC, e⟩)

end Draft

/-- The per-filename step of the production `_list_chunks` loop
    (lines 134-147): the parsed instant is the chunk START,
    `E = S + chunk_duration_seconds`. -/
def prodChunkOfName (dur : Int) (filename : String) :
    Except Unit (Option Chunk) :=
  match parse_chunk_start_time filename with
  | .error e => .error e
  | .ok none => .ok none
  | .ok (some t) => .ok (some ⟨filename, t, t + dur⟩)

/-- Lexicographic code-point comparison of character lists: Python
    string `<`, used to state the "ties broken by name" ordering. -/
def charListLt : List Char → List Char → Bool
  | [], [] => false
  | [], _ :: _ => true
  | _ :: _, [] => false
  | a :: as, b :: bs =>
    if a < b then true else if b < a then false else charListLt as bs

/-- Ordering by start time, as produced by the catalog sort. -/
def chunkLeS (a b : Chunk) : Prop := a.S ≤ b.S

/-- Remote-backend environment in which every external step succeeds. -/
def envAllOk : Env :=
  ⟨true, false, fun _ => true, fun _ => true, true, true, true⟩

/-- Remote-backend environment in which the ffmpeg trim of every chunk
    fails (nonzero exit or timeout). -/
def envTrimFail : Env :=
  ⟨true, false, fun _ => true, fun _ => false, true, true, true⟩

/-- Remote-backend environment in which everything succeeds except the
    faststart remux (`ensure_browser_playable_mp4` raises). -/
def envNoOpt : Env :=
  ⟨true, false, fun _ => true, fun _ => true, true, false, true⟩

end ClipSpec

/-! ## Theorems -/

namespace ClipSpec

/-- C1: for every selected chunk and window derived from non-negative
margins, `offset = max(chunk.start, window.start) - chunk.start` and
`duration = min(chunk.end, window.end) - max(chunk.start, window.start)`
are both non-negative; and for a catalog of three 300s chunks starting
at `T, T+300, T+600`, an alert at `T+290` with margins before = 2 min,
after = 1 min yields the window `[T+170, T+350)`, selects exactly the
first two chunks, and computes offset 170s / duration 130s for the
first and offset 0s / duration 50s for the second. -/
theorem C1_segment_arithmetic :
    (∀ (c : Chunk) (alert beforeMin afterMin : Int),
       0 ≤ beforeMin → 0 ≤ afterMin → c.S ≤ c.E →
       chunk_intersects_window c (windowStart alert beforeMin) (windowEnd alert afterMin) = true →
       0 ≤ segOffset c (windowStart alert beforeMin) ∧
       0 ≤ segDuration c (windowStart alert beforeMin) (windowEnd alert afterMin))
  ∧ (∀ T : Int,
       windowStart (T + 290) 2 = T + 170 ∧ windowEnd (T + 290) 1 = T + 350
       ∧ selectChunks [⟨"c0", T, T + 300⟩, ⟨"c1", T + 300, T + 600⟩, ⟨"c2", T + 600, T + 900⟩]
           (windowStart (T + 290) 2) (windowEnd (T + 290) 1)
           = [⟨"c0", T, T + 300⟩, ⟨"c1", T + 300, T + 600⟩]
       ∧ segOffset ⟨"c0", T, T + 300⟩ (windowStart (T + 290) 2) = 170
       ∧ segDuration ⟨"c0", T, T + 300⟩ (windowStart (T + 290) 2) (windowEnd (T + 290) 1) = 130
       ∧ segOffset ⟨"c1", T + 300, T + 600⟩ (windowStart (T + 290) 2) = 0
       ∧ segDuration ⟨"c1", T + 300, T + 600⟩ (windowStart (T + 290) 2) (windowEnd (T + 290) 1) = 50) := by
  constructor
  · intro c alert beforeMin afterMin hb ha hc hsel
    simp [chunk_intersects_window] at hsel
    unfold segOffset segDuration windowStart windowEnd at *
    omega
  · intro T
    have hws : windowStart (T + 290) 2 = T + 170 := by unfold windowStart; ring
    have hwe : windowEnd (T + 290) 1 = T + 350 := by unfold windowEnd; ring
    rw [hws, hwe]
    refine ⟨rfl, rfl, ?_, ?_, ?_, ?_, ?_⟩
    · have h0 : chunk_intersects_window ⟨"c0", T, T + 300⟩ (T + 170) (T + 350) = true := by
        simp [chunk_intersects_window]
      have h1 : chunk_intersects_window ⟨"c1", T + 300, T + 600⟩ (T + 170) (T + 350) = true := by
        simp [chunk_intersects_window]
      have h2 : chunk_intersects_window ⟨"c2", T + 600, T + 900⟩ (T + 170) (T + 350) = false := by
        simp [chunk_intersects_window]
      simp [selectChunks, List.filter, h0, h1, h2]
    · simp only [segOffset]; omega
    · simp only [segDuration]; omega
    · simp only [segOffset]; omega
    · simp only [segDuration]; omega

/-- Witness for C1: the non-negativity part applied to the first
scenario chunk at `T = 0`, discharging every hypothesis concretely. -/
theorem C1_segment_arithmetic_witness :
    0 ≤ segOffset ⟨"c0", 0, 300⟩ (windowStart 290 2) ∧
    0 ≤ segDuration ⟨"c0", 0, 300⟩ (windowStart 290 2) (windowEnd 290 1) :=
  C1_segment_arithmetic.1 ⟨"c0", 0, 300⟩ 290 2 1 (by decide) (by decide)
    (by decide) (by decide)

/-- C2: the selector keeps chunk `c` iff `NOT (c.end <= w.start OR
c.start >= w.end)`; a chunk exactly abutting the window boundary
(`c.end = w.start` or `c.start = w.end`) is excluded, and a chunk with
`c.end = w.start + 1` (one second of positive overlap) is included. -/
theorem C2_overlap_predicate :
    (∀ (c : Chunk) (ws we : Int),
        chunk_intersects_window c ws we = true ↔ ¬(c.E ≤ ws ∨ c.S ≥ we))
  ∧ (∀ (c : Chunk) (ws we : Int), c.E = ws → chunk_intersects_window c ws we = false)
  ∧ (∀ (c : Chunk) (ws we : Int), c.S = we → chunk_intersects_window c ws we = false)
  ∧ (∀ (c : Chunk) (ws we : Int), c.S < c.E → ws < we → c.E = ws + 1 →
        chunk_intersects_window c ws we = true) := by
  refine ⟨?_, ?_, ?_, ?_⟩ <;> intro c ws we <;> simp [chunk_intersects_window] <;> omega

/-- Witness for C2: the three boundary cases at concrete chunks and
windows. -/
theorem C2_overlap_predicate_witness :
    chunk_intersects_window ⟨"c", 0, 10⟩ 10 20 = false ∧
    chunk_intersects_window ⟨"c", 25, 30⟩ 10 25 = false ∧
    chunk_intersects_window ⟨"c", 0, 11⟩ 10 20 = true :=
  ⟨C2_overlap_predicate.2.1 ⟨"c", 0, 10⟩ 10 20 (by decide),
   C2_overlap_predicate.2.2.1 ⟨"c", 25, 30⟩ 10 25 (by decide),
   C2_overlap_predicate.2.2.2 ⟨"c", 0, 11⟩ 10 20 (by decide) (by decide) (by decide)⟩

end ClipSpec

/-! ## Helper lemmas -/

namespace ClipSpec

theorem collectChunks_append_skip (dur : Int) (pre post : List String) (bad : String)
    (h : parse_chunk_start_time bad = .ok none) :
    collectChunks dur (pre ++ bad :: post) = collectChunks dur (pre ++ post) := by
  induction pre with
  | nil => simp [collectChunks, h]
  | cons n ns ih =>
    cases hp : parse_chunk_start_time n with
    | error e => simp [collectChunks, hp]
    | ok o => cases o <;> simp [collectChunks, hp, ih]

theorem collectChunks_append_raise (dur : Int) (pre post : List String) (bad : String)
    (h : parse_chunk_start_time bad = .error ()) :
    collectChunks dur (pre ++ bad :: post) = none := by
  induction pre with
  | nil => simp [collectChunks, h]
  | cons n ns ih =>
    cases hp : parse_chunk_start_time n with
    | error e => simp [collectChunks, hp]
    | ok o => cases o <;> simp [collectChunks, hp, ih]

theorem collectChunks_all_skip (dur : Int) (names : List String)
    (h : ∀ n ∈ names, parse_chunk_start_time n = .ok none) :
    collectChunks dur names = some [] := by
  induction names with
  | nil => rfl
  | cons n ns ih =>
    have hn := h n (by simp)
    simp [collectChunks, hn]
    exact ih (fun m hm => h m (by simp [hm]))

theorem mem_insertChunk {x c : Chunk} {l : List Chunk} :
    x ∈ insertChunk c l ↔ x = c ∨ x ∈ l := by
  induction l with
  | nil => simp [insertChunk]
  | cons d ds ih =>
    by_cases h : d.S ≤ c.S <;> simp [insertChunk, h, ih] <;> tauto

theorem insertChunk_sorted (c : Chunk) (l : List Chunk)
    (h : l.Pairwise chunkLeS) : (insertChunk c l).Pairwise chunkLeS := by
  induction l with
  | nil => simp [insertChunk, List.Pairwise]
  | cons d ds ih =>
    rcases List.pairwise_cons.mp h with ⟨hd, hds⟩
    by_cases hc : d.S ≤ c.S
    · simp only [insertChunk, if_pos hc]
      refine List.pairwise_cons.mpr ⟨?_, ih hds⟩
      intro x hx
      rcases mem_insertChunk.mp hx with rfl | hx
      · exact hc
      · exact hd x hx
    · simp only [insertChunk, if_neg hc]
      refine List.pairwise_cons.mpr ⟨?_, h⟩
      intro x hx
      rcases List.mem_cons.mp hx with rfl | hx
      · exact le_of_not_le hc
      · exact le_trans (le_of_not_le hc) (hd x hx)

theorem sortByS_loop_sorted (l : List Chunk) :
    ∀ acc : List Chunk, acc.Pairwise chunkLeS →
      (l.foldl (fun acc c => insertChunk c acc) acc).Pairwise chunkLeS := by
  induction l with
  | nil => intro acc h; simpa using h
  | cons c cs ih => intro acc h; exact ih _ (insertChunk_sorted c acc h)

theorem sortByS_sorted (l : List Chunk) : (sortByS l).Pairwise chunkLeS :=
  sortByS_loop_sorted l [] (by simp)

theorem listChunksS3_sorted (dur : Int) (names : List String) :
    (listChunksS3 dur names).Pairwise chunkLeS := by
  unfold listChunksS3
  cases collectChunks dur names with
  | none => simp
  | some cs => exact sortByS_sorted cs

theorem segFails_false (env : Env) (i : Nat) (h : segFails env i = false) :
    (env.localSource = false → env.downloadOk i = true) ∧ env.trimOk i = true := by
  unfold segFails at h
  cases hl : env.localSource <;> cases hd : env.downloadOk i <;>
    cases ht : env.trimOk i <;> simp [hl, hd, ht] at h ⊢

theorem runSegments_ok (env : Env) (l : List Chunk) :
    ∀ (i : Nat) (st : LoopState),
      (∀ j, i ≤ j → j < i + l.length → segFails env j = false) →
      ∃ st', runSegments env l i st = .ok st' ∧
        (∀ f, f ∈ st'.cleanup →
          f ∈ st.cleanup ∨ (∃ m, f = TempFile.part m) ∨ (∃ s, f = TempFile.dl s)) := by
  induction l with
  | nil => intro i st h; exact ⟨st, rfl, fun f hf => Or.inl hf⟩
  | cons c rest ih =>
    intro i st h
    have hi : segFails env i = false := h i le_rfl (by simp)
    obtain ⟨hdl, htrim⟩ := segFails_false env i hi
    cases hl : env.localSource with
    | false =>
      have hdok : env.downloadOk i = true := hdl hl
      have step : runSegments env (c :: rest) i st =
          runSegments env rest (i + 1)
            (stCreate (.part i) (stCreate (.dl c.name) (stCleanup (.dl c.name)
              (stCleanup (.part i) { st with steps := st.steps ++ [i] })))) := by
        simp only [runSegments, hl, hdok, htrim]; rfl
      obtain ⟨st', h1, h3⟩ := ih (i + 1) _ (fun j hj1 hj2 => h j (by omega) (by simp; omega))
      refine ⟨st', step ▸ h1, ?_⟩
      intro f hf
      rcases h3 f hf with hf2 | hf2
      · simp [stCreate, stCleanup] at hf2
        rcases hf2 with hf3 | hf3 | hf3
        · exact Or.inl hf3
        · exact Or.inr (Or.inl ⟨i, hf3⟩)
        · exact Or.inr (Or.inr ⟨c.name, hf3⟩)
      · exact Or.inr hf2
    | true =>
      have step : runSegments env (c :: rest) i st =
          runSegments env rest (i + 1)
            (stCreate (.part i) (stCleanup (.part i) { st with steps := st.steps ++ [i] })) := by
        simp only [runSegments, hl, htrim]; rfl
      obtain ⟨st', h1, h3⟩ := ih (i + 1) _ (fun j hj1 hj2 => h j (by omega) (by simp; omega))
      refine ⟨st', step ▸ h1, ?_⟩
      intro f hf
      rcases h3 f hf with hf2 | hf2
      · simp [stCreate, stCleanup] at hf2
        rcases hf2 with hf3 | hf3
        · exact Or.inl hf3
        · exact Or.inr (Or.inl ⟨i, hf3⟩)
      · exact Or.inr hf2

theorem runSegments_fail (env : Env) (k : Nat) (hk : segFails env k = true) :
    ∀ (l : List Chunk) (i : Nat) (st : LoopState),
      i ≤ k → k < i + l.length →
      (∀ j, i ≤ j → j < k → segFails env j = false) →
      (∀ f, f ∈ st.existing → f ∈ st.cleanup) →
      (∀ j, j ∈ st.steps → j ≤ k) →
      ∃ st', runSegments env l i st = .error st' ∧
        (∀ f, f ∈ st'.existing → f ∈ st'.cleanup) ∧
        (∀ j, j ∈ st'.steps → j ≤ k) := by
  intro l
  induction l with
  | nil => intro i st h1 h2 h3 h4 h5; simp at h2; omega
  | cons c rest ih =>
    intro i st hik hlen hmin hinv hsteps
    by_cases hik2 : i = k
    · subst hik2
      unfold segFails at hk
      cases hl : env.localSource with
      | true =>
        have htf : env.trimOk i = false := by
          rw [hl] at hk; simpa using hk
        refine ⟨stCleanup (.part i) { st with steps := st.steps ++ [i] }, ?_, ?_, ?_⟩
        · simp only [runSegments, hl, htf]; rfl
        · intro f hf
          simp only [stCleanup] at hf ⊢
          simp only [List.mem_append]
          exact Or.inl (hinv f hf)
        · intro j hj
          simp only [stCleanup] at hj
          simp at hj
          rcases hj with hj | hj
          · exact hsteps j hj
          · omega
      | false =>
        cases hd : env.downloadOk i with
        | false =>
          refine ⟨stCleanup (.dl c.name)
              (stCleanup (.part i) { st with steps := st.steps ++ [i] }), ?_, ?_, ?_⟩
          · simp only [runSegments, hl, hd]; rfl
          · intro f hf
            simp only [stCleanup] at hf ⊢
            simp only [List.mem_append]
            exact Or.inl (Or.inl (hinv f hf))
          · intro j hj
            simp only [stCleanup] at hj
            simp at hj
            rcases hj with hj | hj
            · exact hsteps j hj
            · omega
        | true =>
          have htf : env.trimOk i = false := by
            rw [hl, hd] at hk; simpa using hk
          refine ⟨stCreate (.dl c.name) (stCleanup (.dl c.name)
              (stCleanup (.part i) { st with steps := st.steps ++ [i] })), ?_, ?_, ?_⟩
          · simp only [runSegments, hl, hd, htf]; rfl
          · intro f hf
            simp [stCreate, stCleanup, addFile] at hf ⊢
            rcases hf with hf | hf
            · exact Or.inr (Or.inr hf)
            · exact Or.inl (hinv f hf)
          · intro j hj
            simp [stCreate, stCleanup, addFile] at hj
            rcases hj with hj | hj
            · exact hsteps j hj
            · omega
    · have hilt : i < k := lt_of_le_of_ne hik hik2
      have hi : segFails env i = false := hmin i le_rfl hilt
      obtain ⟨hdl, htrim⟩ := segFails_false env i hi
      cases hl : env.localSource with
      | false =>
        have hdok : env.downloadOk i = true := hdl hl
        have step : runSegments env (c :: rest) i st =
            runSegments env rest (i + 1)
              (stCreate (.part i) (stCreate (.dl c.name) (stCleanup (.dl c.name)
                (stCleanup (.part i) { st with steps := st.steps ++ [i] })))) := by
          simp only [runSegments, hl, hdok, htrim]; rfl
        rw [step]
        apply ih (i + 1) _ (by omega) (by simp at hlen ⊢; omega)
          (fun j hj1 hj2 => hmin j (by omega) hj2)
        · intro f hf
          simp [stCreate, stCleanup, addFile] at hf ⊢
          rcases hf with hf | hf | hf
          · exact Or.inr (Or.inl hf)
          · exact Or.inr (Or.inr hf)
          · exact Or.inl (hinv f hf)
        · intro j hj
          simp [stCreate, stCleanup, addFile] at hj
          rcases hj with hj | hj
          · exact hsteps j hj
          · omega
      | true =>
        have step : runSegments env (c :: rest) i st =
            runSegments env rest (i + 1)
              (stCreate (.part i) (stCleanup (.part i) { st with steps := st.steps ++ [i] })) := by
          simp only [runSegments, hl, htrim]; rfl
        rw [step]
        apply ih (i + 1) _ (by omega) (by simp at hlen ⊢; omega)
          (fun j hj1 hj2 => hmin j (by omega) hj2)
        · intro f hf
          simp [stCreate, stCleanup, addFile] at hf ⊢
          rcases hf with hf | hf
          · exact Or.inr hf
          · exact Or.inl (hinv f hf)
        · intro j hj
          simp [stCreate, stCleanup, addFile] at hj
          rcases hj with hj | hj
          · exact hsteps j hj
          · omega

end ClipSpec

/-! ## Claims C3 - C10 -/

namespace ClipSpec

/-- C3, counterexample: the claim that a filename matching the regex's
digit fields but naming an invalid calendar date (day 99) is skipped
while the remaining matching files are still returned is FALSE: the
`ValueError` raised by the `datetime` constructor escapes the listing
loop and is caught at catalog level, so the whole listing returns `[]`
and the other matching file is lost. -/
theorem C3_catalog_skip_counterexample :
    listChunksS3 300 ["gcam_99122025_000000.mp4", "gcam_22122025_075030.mp4"] = [] ∧
    listChunksS3 300 ["gcam_22122025_075030.mp4"] =
      [⟨"gcam_22122025_075030.mp4", 63901986630, 63901986930⟩] := ⟨rfl, rfl⟩

/-- C3, amended: a filename that does not match the configured pattern
is silently skipped and the remaining files are still returned; but a
filename whose characters match the regex while not forming a valid
calendar date makes the whole listing return the empty list (the
catalog operation still does not raise to its caller). -/
theorem C3_catalog_skip :
    (∀ (dur : Int) (pre post : List String) (bad : String),
        parse_chunk_start_time bad = .ok none →
        listChunksS3 dur (pre ++ bad :: post) = listChunksS3 dur (pre ++ post))
  ∧ (∀ (dur : Int) (pre post : List String) (bad : String),
        parse_chunk_start_time bad = .error () →
        listChunksS3 dur (pre ++ bad :: post) = []) := by
  constructor
  · intro dur pre post bad h
    unfold listChunksS3
    rw [collectChunks_append_skip dur pre post bad h]
  · intro dur pre post bad h
    unfold listChunksS3
    rw [collectChunks_append_raise dur pre post bad h]

/-- Witness for C3: both amended behaviors at concrete listings. -/
theorem C3_catalog_skip_witness :
    listChunksS3 300 (["nope.txt"] ++ ["gcam_22122025_075030.mp4"]) =
      listChunksS3 300 ["gcam_22122025_075030.mp4"] ∧
    listChunksS3 300 (["gcam_99122025_000000.mp4"] ++ ["gcam_22122025_075030.mp4"]) = [] :=
  ⟨C3_catalog_skip.1 300 [] ["gcam_22122025_075030.mp4"] "nope.txt" rfl,
   C3_catalog_skip.2 300 [] ["gcam_22122025_075030.mp4"] "gcam_99122025_000000.mp4" rfl⟩

/-- C4, counterexample: the claim that the empty-selection outcome is
distinguishable from a generic error result is FALSE: a run whose
catalog is non-empty but whose selection is empty returns exactly the
same value (`(None, None)`, no files) as a run whose catalog
enumeration itself failed. -/
theorem C4_no_footage_counterexample :
    listChunksS3 300 ["gcam_22122025_075030.mp4"] ≠ [] ∧
    selectChunks (catalogOf envAllOk 300 (.ok ["gcam_22122025_075030.mp4"]))
      (windowStart 63901996630 2) (windowEnd 63901996630 1) = [] ∧
    extract_clip envAllOk 300 (.ok ["gcam_22122025_075030.mp4"]) 63901996630 2 1 =
      extract_clip envAllOk 300 (.error ()) 63901996630 2 1 :=
  ⟨by decide, by decide, by decide⟩

/-- C4, amended: whenever the Window Selector returns an empty
selection the Orchestrator terminates with the null result
`(None, None)` — the same value returned for generic errors, so it is
distinguishable only in the logs, not in the returned value — and
creates zero temporary files before returning. -/
theorem C4_no_footage (env : Env) (dur : Int)
    (listing : Except Unit (List String)) (alert beforeMin afterMin : Int)
    (hsel : selectChunks (catalogOf env dur listing) (windowStart alert beforeMin)
              (windowEnd alert afterMin) = []) :
    extract_clip env dur listing alert beforeMin afterMin = emptyResult := by
  unfold extract_clip
  by_cases hc : env.credsOk
  · simp only [hc, Bool.not_true, Bool.false_eq_true, if_false]
    by_cases hempty : (catalogOf env dur listing).isEmpty
    · simp [hempty]
    · simp [hempty, hsel]
  · simp [hc]

/-- Witness for C4: an alert far away from the only chunk. -/
theorem C4_no_footage_witness :
    extract_clip envAllOk 300 (.ok ["gcam_22122025_075030.mp4"]) 63901996630 2 1 =
      emptyResult :=
  C4_no_footage envAllOk 300 (.ok ["gcam_22122025_075030.mp4"]) 63901996630 2 1 (by decide)

/-- C5, counterexample: the claim that an enumeration failure is
returned as a result distinguishable as a `CatalogError` is FALSE: the
exception is caught and the empty list is returned, the same value as
for a reachable source with no matching files. -/
theorem C5_catalog_error_counterexample :
    listChunksS3Enum 300 (.error ()) = listChunksS3Enum 300 (.ok []) ∧
    listChunksS3Enum 300 (.error ()) = ([] : List Chunk) := ⟨rfl, rfl⟩

/-- C5, amended: the list operation returns the empty sequence both
when the source is reachable but contains no matching files and when
enumeration itself fails (which is only logged); the caller cannot
distinguish the two outcomes from the returned value. -/
theorem C5_empty_vs_error :
    (∀ dur : Int, listChunksS3Enum dur (.ok []) = [])
  ∧ (∀ dur : Int, listChunksS3Enum dur (.error ()) = [])
  ∧ (∀ (dur : Int) (names : List String),
        (∀ n ∈ names, parse_chunk_start_time n = .ok none) →
        listChunksS3Enum dur (.ok names) = []) := by
  refine ⟨fun _ => rfl, fun _ => rfl, ?_⟩
  intro dur names h
  show listChunksS3 dur names = []
  unfold listChunksS3
  rw [collectChunks_all_skip dur names h]
  rfl

/-- Witness for C5: a reachable listing with only non-matching names. -/
theorem C5_empty_vs_error_witness :
    listChunksS3Enum 300 (.ok ["a.txt", "b.txt"]) = [] :=
  C5_empty_vs_error.2.2 300 ["a.txt", "b.txt"] (by decide)

/-- C6: if the Segment Extractor step fails at the first failing chunk
index `k` (download failure when remote, or ffmpeg trim nonzero exit /
timeout), the Orchestrator enters no iteration past `k`, deletes every
temporary file created so far (the final scratch filesystem is empty),
and returns the null artifact with no thumbnail. -/
theorem C6_abort_on_failure (env : Env) (dur : Int)
    (listing : Except Unit (List String))
    (alert beforeMin afterMin : Int) (k : Nat)
    (hcred : env.credsOk = true)
    (hk : segFails env k = true)
    (hmin : ∀ j, j < k → segFails env j = false)
    (hlen : k < (selectChunks (catalogOf env dur listing) (windowStart alert beforeMin)
              (windowEnd alert afterMin)).length) :
    (extract_clip env dur listing alert beforeMin afterMin).artifact = none ∧
    (extract_clip env dur listing alert beforeMin afterMin).thumbnail = none ∧
    (extract_clip env dur listing alert beforeMin afterMin).existing = [] ∧
    (∀ j ∈ (extract_clip env dur listing alert beforeMin afterMin).steps, j ≤ k) := by
  obtain ⟨st', hrun, hinv, hsteps⟩ := runSegments_fail env k hk
    (selectChunks (catalogOf env dur listing) (windowStart alert beforeMin)
      (windowEnd alert afterMin))
    0 ⟨[], [], [], []⟩ (Nat.zero_le k) (by simpa using hlen)
    (fun j _ hj => hmin j hj) (by simp) (by simp)
  have hcat : (catalogOf env dur listing).isEmpty = false := by
    cases hcc : catalogOf env dur listing with
    | nil => rw [hcc] at hlen; simp [selectChunks] at hlen
    | cons a l => simp
  have hsne : (selectChunks (catalogOf env dur listing) (windowStart alert beforeMin)
      (windowEnd alert afterMin)).isEmpty = false := by
    cases hss : selectChunks (catalogOf env dur listing) (windowStart alert beforeMin)
        (windowEnd alert afterMin) with
    | nil => rw [hss] at hlen; simp at hlen
    | cons a l => simp
  have heq : extract_clip env dur listing alert beforeMin afterMin = abortResult st' := by
    unfold extract_clip
    simp only [hcred, Bool.not_true, Bool.false_eq_true, if_false, hcat, hsne, hrun]
  rw [heq]
  refine ⟨rfl, rfl, ?_, ?_⟩
  · show cleanupTempFiles st'.cleanup st'.existing = []
    unfold cleanupTempFiles
    rw [List.filter_eq_nil_iff]
    intro f hf
    simp [hinv f hf]
  · intro j hj
    exact hsteps j hj

/-- Witness for C6: the trim of the single selected chunk fails. -/
theorem C6_abort_on_failure_witness :
    (extract_clip envTrimFail 300 (.ok ["gcam_22122025_075030.mp4"]) 63901986630 2 1).artifact = none ∧
    (extract_clip envTrimFail 300 (.ok ["gcam_22122025_075030.mp4"]) 63901986630 2 1).thumbnail = none ∧
    (extract_clip envTrimFail 300 (.ok ["gcam_22122025_075030.mp4"]) 63901986630 2 1).existing = [] ∧
    (∀ j ∈ (extract_clip envTrimFail 300 (.ok ["gcam_22122025_075030.mp4"]) 63901986630 2 1).steps, j ≤ 0) :=
  C6_abort_on_failure envTrimFail 300 (.ok ["gcam_22122025_075030.mp4"]) 63901986630 2 1 0
    rfl rfl (fun j hj => absurd hj (by omega)) (by decide)

/-- C7: when every segment step succeeds, concatenation succeeds, but
the faststart remux fails, the run is not aborted: the unoptimized
concatenated file is moved to the output path, the returned clip
artifact is non-null and on disk, and the degradation warning of
line 457 is recorded. -/
theorem C7_optimize_fallback (env : Env) (dur : Int)
    (listing : Except Unit (List String)) (alert beforeMin afterMin : Int)
    (hcred : env.credsOk = true)
    (hok : ∀ j, j < (selectChunks (catalogOf env dur listing) (windowStart alert beforeMin)
              (windowEnd alert afterMin)).length → segFails env j = false)
    (hne : (selectChunks (catalogOf env dur listing) (windowStart alert beforeMin)
              (windowEnd alert afterMin)).length ≠ 0)
    (hconcat : env.concatOk = true)
    (hopt : env.optimizeOk = false) :
    (extract_clip env dur listing alert beforeMin afterMin).artifact = some TempFile.outputFile ∧
    (extract_clip env dur listing alert beforeMin afterMin).warnedDegraded = true ∧
    TempFile.outputFile ∈ (extract_clip env dur listing alert beforeMin afterMin).existing := by
  obtain ⟨st', hrun, hclean⟩ := runSegments_ok env
    (selectChunks (catalogOf env dur listing) (windowStart alert beforeMin)
      (windowEnd alert afterMin))
    0 ⟨[], [], [], []⟩ (fun j h1 h2 => hok j (by omega))
  have hcat : (catalogOf env dur listing).isEmpty = false := by
    cases hcc : catalogOf env dur listing with
    | nil => rw [hcc] at hne; simp [selectChunks] at hne
    | cons a l => simp
  have hsne : (selectChunks (catalogOf env dur listing) (windowStart alert beforeMin)
      (windowEnd alert afterMin)).isEmpty = false := by
    cases hss : selectChunks (catalogOf env dur listing) (windowStart alert beforeMin)
        (windowEnd alert afterMin) with
    | nil => rw [hss] at hne; simp at hne
    | cons a l => simp
  have hout : TempFile.outputFile ∉ st'.cleanup := by
    intro hmem
    rcases hclean _ hmem with h | ⟨m, h⟩ | ⟨s, h⟩ <;> simp at h
  unfold extract_clip
  simp only [hcred, Bool.not_true, Bool.false_eq_true, if_false, hcat, hsne, hrun,
    hconcat, hopt, Bool.not_false, if_true, stCreate, stCleanup, addFile, replaceFile]
  cases ht : env.thumbOk with
  | true =>
    refine ⟨trivial, trivial, ?_⟩
    show TempFile.outputFile ∈ cleanupTempFiles _ _
    unfold cleanupTempFiles
    rw [List.mem_filter]
    constructor
    · simp
    · simp [hout]
  | false =>
    refine ⟨trivial, trivial, ?_⟩
    show TempFile.outputFile ∈ cleanupTempFiles _ _
    unfold cleanupTempFiles
    rw [List.mem_filter]
    constructor
    · simp
    · simp [hout]

/-- Witness for C7: a one-chunk run whose remux step fails. -/
theorem C7_optimize_fallback_witness :
    (extract_clip envNoOpt 300 (.ok ["gcam_22122025_075030.mp4"]) 63901986630 2 1).artifact = some TempFile.outputFile ∧
    (extract_clip envNoOpt 300 (.ok ["gcam_22122025_075030.mp4"]) 63901986630 2 1).warnedDegraded = true ∧
    TempFile.outputFile ∈ (extract_clip envNoOpt 300 (.ok ["gcam_22122025_075030.mp4"]) 63901986630 2 1).existing :=
  C7_optimize_fallback envNoOpt 300 (.ok ["gcam_22122025_075030.mp4"]) 63901986630 2 1
    rfl (fun j hj => rfl) (by decide) rfl rfl

end ClipSpec

namespace ClipSpec

/-- C8, counterexample: the claim that ties in start time are broken by
chunk name is FALSE: `list.sort(key=lambda x: x["S"])` is merely
stable, so two names parsing to the same start instant keep their
listing order, here with the lexicographically larger name first. -/
theorem C8_catalog_order_counterexample :
    listChunksS3 300 ["gcam_22122025_075030.mp4x", "gcam_22122025_075030.mp4"] =
      [⟨"gcam_22122025_075030.mp4x", 63901986630, 63901986930⟩,
       ⟨"gcam_22122025_075030.mp4", 63901986630, 63901986930⟩] ∧
    charListLt "gcam_22122025_075030.mp4".data "gcam_22122025_075030.mp4x".data = true :=
  ⟨rfl, by decide⟩

/-- C8, amended: every catalog listing (either backend) is sorted
ascending by chunk start time, with ties kept in listing order (the
sort is stable; there is no name tie-break); the Window Selector's
output is an order-preserving sublist of the catalog and hence also
sorted, and selection is a pure function of catalog and window, so
re-running it yields the same sequence. -/
theorem C8_catalog_order :
    (∀ (dur : Int) (names : List String),
        (listChunksS3 dur names).Pairwise (fun a b => a.S ≤ b.S))
  ∧ (∀ (dur : Int) (names : List String),
        (listChunksLocal dur names).Pairwise (fun a b => a.S ≤ b.S))
  ∧ (∀ (chunks : List Chunk) (ws we : Int),
        (selectChunks chunks ws we).Sublist chunks)
  ∧ (∀ (chunks : List Chunk) (ws we : Int),
        chunks.Pairwise (fun a b => a.S ≤ b.S) →
        (selectChunks chunks ws we).Pairwise (fun a b => a.S ≤ b.S)) := by
  refine ⟨fun dur names => listChunksS3_sorted dur names, ?_, ?_, ?_⟩
  · intro dur names
    unfold listChunksLocal
    cases collectChunks dur (names.filter (fun n => endsWithMp4 n)) with
    | none => simp
    | some cs => exact sortByS_sorted cs
  · intro chunks ws we
    exact List.filter_sublist chunks
  · intro chunks ws we h
    exact h.sublist (List.filter_sublist chunks)

/-- Witness for C8: order preservation of selection on a sorted
two-chunk catalog. -/
theorem C8_catalog_order_witness :
    (selectChunks [⟨"c0", 0, 300⟩, ⟨"c1", 300, 600⟩] 100 400).Pairwise
      (fun a b => a.S ≤ b.S) :=
  C8_catalog_order.2.2.2 [⟨"c0", 0, 300⟩, ⟨"c1", 300, 600⟩] 100 400 (by decide)

/-- C9, counterexample: the claim that the two backends accept exactly
the same file names is FALSE: `re.match` only anchors at the start, so
the S3 backend accepts `gcam_22122025_075030.mp4.bak`, while the local
backend rejects it at its `endswith(".mp4")` pre-filter. -/
theorem C9_backend_equiv_counterexample :
    listChunksS3 300 ["gcam_22122025_075030.mp4.bak"] ≠
      listChunksLocal 300 ["gcam_22122025_075030.mp4.bak"] := by decide

/-- C9, amended: the two backends share the parser, interval
derivation, and sort, but the local backend additionally requires the
filename to end in `.mp4`; restricted to listings whose names all end
in `.mp4`, the backends accept the same names, derive the same
intervals, and return the chunks in the same order. -/
theorem C9_backend_equiv :
    ∀ (dur : Int) (names : List String),
      (∀ n ∈ names, endsWithMp4 n = true) →
      listChunksLocal dur names = listChunksS3 dur names := by
  intro dur names h
  unfold listChunksLocal listChunksS3
  rw [List.filter_eq_self.mpr h]

/-- Witness for C9: a listing whose names all end in `.mp4`. -/
theorem C9_backend_equiv_witness :
    listChunksLocal 300 ["gcam_22122025_075030.mp4", "x.mp4"] =
      listChunksS3 300 ["gcam_22122025_075030.mp4", "x.mp4"] :=
  C9_backend_equiv 300 ["gcam_22122025_075030.mp4", "x.mp4"] (by decide)

/-- C10, counterexample: the claim that for EVERY chunk duration `d`
the draft interval equals the production interval shifted earlier by
`d` is FALSE at `d = 60`: the draft hard-codes its 300 s duration, so
its interval is shifted by 300, not by `d`. -/
theorem C10_draft_vs_production_counterexample :
    Draft.chunkOfName "gcam_22122025_075030.mp4" =
      .ok (some ⟨"gcam_22122025_075030.mp4", 63901986330, 63901986630⟩) ∧
    prodChunkOfName 60 "gcam_22122025_075030.mp4" =
      .ok (some ⟨"gcam_22122025_075030.mp4", 63901986630, 63901986690⟩) ∧
    ¬ ((63901986330 : Int) = 63901986630 - 60 ∧ (63901986630 : Int) = 63901986690 - 60) :=
  ⟨rfl, rfl, by decide⟩

/-- C10, amended: both implementations parse a matching filename to the
same instant `t`; the draft takes `t` as the chunk END with its
hard-coded 300 s duration (start `t - 300`), production takes `t` as
the START (end `t + d`); the draft interval equals the production
interval at `d = 300` shifted earlier by exactly 300 s, and for every
`d` the two derived chunks differ on every matching filename. -/
theorem C10_draft_vs_production :
    (∀ filename : String, Draft.parse_end_time filename = parse_chunk_start_time filename)
  ∧ (∀ (filename : String) (t : Int),
        parse_chunk_start_time filename = .ok (some t) →
        Draft.chunkOfName filename = .ok (some ⟨filename, t - 300, t⟩)
        ∧ ∀ d : Int, prodChunkOfName d filename = .ok (some ⟨filename, t, t + d⟩))
  ∧ (∀ (filename : String) (t : Int),
        parse_chunk_start_time filename = .ok (some t) →
        ∀ cd cp : Chunk, Draft.chunkOfName filename = .ok (some cd) →
          prodChunkOfName 300 filename = .ok (some cp) →
          cd.S = cp.S - 300 ∧ cd.E = cp.E - 300)
  ∧ (∀ (filename : String) (t d : Int),
        parse_chunk_start_time filename = .ok (some t) →
        ∀ cd cp : Chunk, Draft.chunkOfName filename = .ok (some cd) →
          prodChunkOfName d filename = .ok (some cp) → cd ≠ cp) := by
  refine ⟨fun _ => rfl, ?_, ?_, ?_⟩
  · intro filename t h
    refine ⟨?_, fun d => ?_⟩
    · unfold Draft.chunkOfName Draft.parse_end_time Draft.CHUNK_DURATION_SEC
      rw [h]
    · unfold prodChunkOfName
      rw [h]
  · intro filename t h cd cp hd hp
    unfold Draft.chunkOfName Draft.parse_end_time Draft.CHUNK_DURATION_SEC at hd
    unfold prodChunkOfName at hp
    rw [h] at hd hp
    have hd' : cd = ⟨filename, t - 300, t⟩ := by
      injection hd with h1; injection h1 with h2; exact h2.symm
    have hp' : cp = ⟨filename, t, t + 300⟩ := by
      injection hp with h1; injection h1 with h2; exact h2.symm
    subst hd'; subst hp'
    constructor <;> simp
  · intro filename t d h cd cp hd hp
    unfold Draft.chunkOfName Draft.parse_end_time Draft.CHUNK_DURATION_SEC at hd
    unfold prodChunkOfName at hp
    rw [h] at hd hp
    have hd' : cd = ⟨filename, t - 300, t⟩ := by
      injection hd with h1; injection h1 with h2; exact h2.symm
    have hp' : cp = ⟨filename, t, t + d⟩ := by
      injection hp with h1; injection h1 with h2; exact h2.symm
    subst hd'; subst hp'
    intro hcontra
    have := congrArg Chunk.S hcontra
    simp at this

/-- Witness for C10: the concrete filename of the repository's example,
parsed by both implementations. -/
theorem C10_draft_vs_production_witness :
    Draft.chunkOfName "gcam_22122025_075030.mp4" =
      .ok (some ⟨"gcam_22122025_075030.mp4", 63901986630 - 300, 63901986630⟩) ∧
    prodChunkOfName 300 "gcam_22122025_075030.mp4" =
      .ok (some ⟨"gcam_22122025_075030.mp4", 63901986630, 63901986630 + 300⟩) :=
  ⟨(C10_draft_vs_production.2.1 "gcam_22122025_075030.mp4" 63901986630 rfl).1,
   (C10_draft_vs_production.2.1 "gcam_22122025_075030.mp4" 63901986630 rfl).2 300⟩

end ClipSpec
